import Mathlib

/-!
# Verification of the log ingestion and classification engine of `dash.py`

This file gives a shallow embedding of the core data-loading logic of the
StreamLitDash repository (`src/dash.py`, function `load_all_data`, lines
40–117, and the first/last event summary, lines 182–217) and proves or
refutes the specification claims about it.

Modelling conventions:
* The filesystem snapshot visible to the program is a concrete value of type
  `BaseDir`: the base directory's mode subdirectories, each holding date
  folders, which hold log files (with their parsed CSV content) and image
  directories (with their file listings).  `os.listdir` order is the order
  of the corresponding lists; `os.path.exists` is membership in the
  snapshot.
* Python string operations used by the code (`str.endswith`, `str.lower`,
  `str.capitalize`, `str.split`, the `in` substring test, and `sorted` on
  strings) are re-implemented over `String.data` by structural recursion so
  that every definition evaluates by `decide`.  `str.lower`/`str.upper`
  are modelled on the ASCII range, which covers every name the program
  manipulates.
* `pd.read_csv` failure (the `except` branch at line 114) is an
  `Option.none` content; an empty CSV (`df.empty`, line 62) is a content
  with an empty row list.  A missing `plate` column (line 103) is the
  `hasPlate := false` flag of the file's content.
* `pd.to_datetime(folder, format="%d-%m-%Y")` (line 65) is `parseDMY`.
  In the source this parse sits inside the per-file `try`, so a folder
  whose name does not parse contributes zero records (every file of it
  raises and is skipped); the embedding short-circuits at the folder level,
  which yields the same record table.  Calendar validity is coarsened to
  range checks on day and month, which is faithful for every name the
  claims touch.
-/

namespace Dash

/-! ## Executable string primitives (models of the Python string ops) -/

/-- Character equality by code point. -/
def chEq (a b : Char) : Bool := a.toNat == b.toNat

/-- Does the first character list start with the second? (model of
`str.startswith` at the list-of-characters level; used to search for a
substring occurrence). -/
def startsWithL : List Char → List Char → Bool
  | _, [] => true
  | [], _ :: _ => false
  | a :: as, b :: bs => chEq a b && startsWithL as bs

/-- Does `sep` occur as a contiguous substring of the list? (model of the
Python `sep in s` test). -/
def containsSub (sep : List Char) : List Char → Bool
  | [] => startsWithL [] sep
  | c :: rest => startsWithL (c :: rest) sep || containsSub sep rest

/-- Everything before the first occurrence of `sep` (the whole list when
`sep` does not occur): model of `s.split(sep)[0]` for a nonempty `sep`. -/
def takeBeforeSub (sep : List Char) : List Char → List Char
  | [] => []
  | c :: rest =>
      if startsWithL (c :: rest) sep then [] else c :: takeBeforeSub sep rest

/-- ASCII lower-casing of one character (model of `str.lower` per char). -/
def lowCh (c : Char) : Char :=
  if 65 ≤ c.toNat ∧ c.toNat ≤ 90 then Char.ofNat (c.toNat + 32) else c

/-- ASCII upper-casing of one character. -/
def upCh (c : Char) : Char :=
  if 97 ≤ c.toNat ∧ c.toNat ≤ 122 then Char.ofNat (c.toNat - 32) else c

/-- Model of Python `str.lower()` (ASCII scope). -/
def lowerS (s : String) : String := String.mk (s.data.map lowCh)

/-- Model of Python `str.capitalize()` (ASCII scope): first character
upper-cased, the rest lower-cased. -/
def capitalizeS (s : String) : String :=
  match s.data with
  | [] => s
  | c :: rest => String.mk (upCh c :: rest.map lowCh)

/-- Model of Python `s.endswith(suf)`. -/
def endsWithS (s suf : String) : Bool :=
  startsWithL s.data.reverse suf.data.reverse

/-- Model of the Python `sub in s` substring test. -/
def containsS (s sub : String) : Bool := containsSub sub.data s.data

/-- Model of `s.split(sep)[0]`: the part of `s` before the first occurrence
of `sep` (all of `s` when `sep` does not occur). -/
def splitHead (s sep : String) : String :=
  String.mk (takeBeforeSub sep.data s.data)

/-- Lexicographic (code-point) order on character lists: model of the
string order used by Python `sorted`. -/
def lexLeL : List Char → List Char → Bool
  | [], _ => true
  | _ :: _, [] => false
  | a :: as, b :: bs => a.toNat < b.toNat || (chEq a b && lexLeL as bs)

/-- Lexicographic order on strings, as a decidable proposition, for
`List.insertionSort` (model of Python `sorted` on file names). -/
def strLeP (a b : String) : Prop := lexLeL a.data b.data = true

instance : DecidableRel strLeP := fun a b => by unfold strLeP; infer_instance

/-- Path join with `/`, the model of `os.path.join` for the relative names
the program builds (none of them is absolute). -/
def joinPath (a b : String) : String := a ++ "/" ++ b

/-! ## Dates -/

/-- A calendar date as parsed from a `DD-MM-YYYY` folder name. -/
structure Date where
  day : Nat
  month : Nat
  year : Nat
deriving DecidableEq, Repr

/-- Splitting a character list at a separator character (used for the
`-` separated date folder names). -/
def splitChAux (sep : Char) : List Char → List Char → List (List Char)
  | [], acc => [acc.reverse]
  | c :: rest, acc =>
      if chEq c sep then acc.reverse :: splitChAux sep rest []
      else splitChAux sep rest (c :: acc)

/-- Is `c` an ASCII digit? -/
def isDigitCh (c : Char) : Bool := 48 ≤ c.toNat ∧ c.toNat ≤ 57

/-- Decimal value of a digit list (assumed all digits). -/
def natOfDigits : List Char → Nat → Nat
  | [], acc => acc
  | c :: rest, acc => natOfDigits rest (acc * 10 + (c.toNat - 48))

/-- Parse a nonempty all-digit character list. -/
def parseNatL (l : List Char) : Option Nat :=
  if !l.isEmpty && l.all isDigitCh then some (natOfDigits l 0) else none

/-- Model of `pd.to_datetime(folder, format="%d-%m-%Y").date()` (line 65):
day and month of at most two digits in range, a four-digit year; any other
name raises (modelled as `none`).  Calendar validity of the day within the
month is coarsened to the range check. -/
def parseDMY (s : String) : Option Date :=
  match splitChAux '-' s.data [] with
  | [ds, ms, ys] =>
    match parseNatL ds, parseNatL ms, parseNatL ys with
    | some d, some m, some y =>
      if 1 ≤ d ∧ d ≤ 31 ∧ 1 ≤ m ∧ m ≤ 12 ∧
          ds.length ≤ 2 ∧ ms.length ≤ 2 ∧ ys.length = 4 then
        some ⟨d, m, y⟩
      else none
    | _, _, _ => none
  | _ => none

/-- Chronological order on dates (how Python sorts `datetime.date`
values). -/
def dateLeP (a b : Date) : Prop :=
  a.year < b.year ∨ (a.year = b.year ∧
    (a.month < b.month ∨ (a.month = b.month ∧ a.day ≤ b.day)))

instance : DecidableRel dateLeP := fun a b => by unfold dateLeP; infer_instance

/-! ## The filesystem snapshot -/

/-- One parsed CSV row: the columns `load_all_data` reads (`id`, `image`)
plus the `plate` column, meaningful only when the file has one. -/
structure CsvRow where
  id : String
  image : String
  plate : String
deriving DecidableEq, Repr

/-- Content of one readable CSV file: whether it has a `plate` column, and
its rows in file order. -/
structure CsvData where
  hasPlate : Bool
  rows : List CsvRow
deriving DecidableEq, Repr

/-- A file inside a date folder.  `content = none` models a file on which
`pd.read_csv` raises (the `except` branch, lines 114–115). -/
structure FileEntry where
  name : String
  content : Option CsvData
deriving DecidableEq, Repr

/-- An image directory inside a date folder, with the names of the image
files it contains. -/
structure ImageDir where
  name : String
  files : List String
deriving DecidableEq, Repr

/-- A date folder: its name, its files in `os.listdir` order, and the
(sub)directories that exist inside it.  Real directory listings carry
distinct names; the model permits duplicates, and the claims that need
distinctness state it as a hypothesis. -/
structure DateFolder where
  name : String
  files : List FileEntry
  imageDirs : List ImageDir
deriving DecidableEq, Repr

/-- A mode directory (`entry`/`exit`, in whatever casing it has on disk)
with its date subfolders in `os.listdir` order.  Non-directory entries of
the mode directory are skipped by the code (line 51) and are not
modelled. -/
structure ModeDir where
  name : String
  folders : List DateFolder
deriving DecidableEq, Repr

/-- The base directory snapshot. -/
structure BaseDir where
  modeDirs : List ModeDir
deriving DecidableEq, Repr

/-- Does a directory of this name exist inside the date folder?
(model of `os.path.exists` on an image-directory candidate). -/
def dirExistsIn (fo : DateFolder) (dname : String) : Bool :=
  fo.imageDirs.any (fun dI => dI.name = dname)

/-- Retrieve a file of the folder by name (the code reads exactly the
names it listed, so the lookup always succeeds on reachable inputs; the
model is total). -/
def lookupFile (fo : DateFolder) (fname : String) : Option (Option CsvData) :=
  (fo.files.find? (fun f => f.name = fname)).map (fun f => f.content)

/-! ## The normalized record (one row of the output table)

The first seven fields are the DataFrame columns the code produces
(`id`, `image`, `plate`, `date`, `time_of_day`, `image_path`, `mode`).
The `g_`-named fields are ghost provenance metadata used only to state
the specification: which folder/file the row came from, the file's ordinal
index `i`, the folder's csv-file count `len(csv_files)`, the row's index
within the file, and the image directory that was selected (when it
exists).  They are determined by the ingestion pass and are not columns of
the Python DataFrame. -/

/-- Day/night tag (the code stores the strings `"Day"`/`"Night"`). -/
inductive TOD
  | Day
  | Night
deriving DecidableEq, Repr

structure Rec where
  id : String
  image : String
  plate : Option String
  date : Date
  time_of_day : TOD
  image_path : Option String
  mode : String
  g_folder : String
  g_file : String
  g_ordinal : Nat
  g_total : Nat
  g_row : Nat
  g_imagesDir : Option String
deriving DecidableEq, Repr

/-! ## The ingestion engine (`load_all_data`, lines 40–117) -/

/-- `csv_file.split("_entry_log")[0]` (line 72). -/
def entryStem (fname : String) : String := splitHead fname "_entry_log"

/-- `csv_file.split("_exit_log")[0]` (line 99). -/
def exitStem (fname : String) : String := splitHead fname "_exit_log"

/-- The day/night classification (lines 68–71 for entry, 79 and 90 for
exit).  The entry rule `i >= len(csv_files) - 3` is stated with truncated
natural subtraction, which agrees with the Python integer comparison: when
`n ≤ 3` the Python right-hand side is `≤ 0` and every `i` passes, and the
truncated `n - 3 = 0` likewise. -/
def todFor (modeName : String) (n i : Nat) (fname : String) : TOD :=
  if modeName = "entry" then (if n - 3 ≤ i then TOD.Night else TOD.Day)
  else (if containsS (lowerS fname) "night" then TOD.Night else TOD.Day)

/-- The image-directory name (relative to the date folder) the code
selects for one file (lines 72–75 for entry, 79–101 for exit). -/
def imagesNameFor (modeName : String) (fo : DateFolder) (fname : String) :
    String :=
  if modeName = "entry" then entryStem fname ++ "_images"
  else
    if containsS (lowerS fname) "night" then
      let nightName := fo.name ++ " night_images"
      if dirExistsIn fo nightName then nightName else "night_images"
    else
      let dayName := fo.name ++ " day_images"
      if dirExistsIn fo dayName then dayName else exitStem fname ++ "_images"

/-- Build one output record from one CSV row (lines 65–112).  The
`image_path` column is the join of the selected images directory and the
row's `image` value when that directory exists, else `None` (lines
106–110; the Python truthiness test `images_folder and ...` is vacuous
because the joined name is never empty). -/
def mkRec (bp modeName : String) (fo : DateFolder) (dt : Date) (n i : Nat)
    (fname : String) (hasPlate : Bool) (j : Nat) (row : CsvRow) : Rec :=
  let imagesName := imagesNameFor modeName fo fname
  let folderPath := joinPath (joinPath bp modeName) fo.name
  let dirPath := joinPath folderPath imagesName
  let ok := dirExistsIn fo imagesName
  { id := row.id
    image := row.image
    plate := if hasPlate then some row.plate else none
    date := dt
    time_of_day := todFor modeName n i fname
    image_path := if ok then some (joinPath dirPath row.image) else none
    mode := capitalizeS modeName
    g_folder := fo.name
    g_file := fname
    g_ordinal := i
    g_total := n
    g_row := j
    g_imagesDir := if ok then some dirPath else none }

/-- Records contributed by one session file (lines 58–113): skipped when
the read raises or the frame is empty, else one record per row, in row
order. -/
def processFile (bp modeName : String) (fo : DateFolder) (dt : Date)
    (n i : Nat) (fname : String) : List Rec :=
  match lookupFile fo fname with
  | some (some data) =>
      if data.rows.isEmpty then []
      else data.rows.enum.map (fun q =>
        mkRec bp modeName fo dt n i fname data.hasPlate q.1 q.2)
  | _ => []

/-- `sorted([f for f in os.listdir(folder_path) if f.endswith(".csv")])`
(lines 54–56): the ascending lexical sort of the folder's `.csv` file
names; a file's position here is its ordinal index `i`. -/
def csvNames (fo : DateFolder) : List String :=
  List.insertionSort strLeP
    ((fo.files.map (fun f => f.name)).filter (fun nm => endsWithS nm ".csv"))

/-- Records contributed by one date folder (lines 49–113). -/
def processFolder (bp modeName : String) (fo : DateFolder) : List Rec :=
  match parseDMY fo.name with
  | none => []
  | some dt =>
      (csvNames fo).enum.flatMap (fun p =>
        processFile bp modeName fo dt (csvNames fo).length p.1 p.2)

/-- Records contributed by one mode (lines 44–47): the mode path exists
iff the base directory has a subdirectory of exactly this name; an absent
mode directory contributes nothing (`continue`). -/
def processMode (bp : String) (b : BaseDir) (modeName : String) : List Rec :=
  match b.modeDirs.find? (fun md => md.name = modeName) with
  | none => []
  | some md => md.folders.flatMap (fun fo => processFolder bp modeName fo)

/-- The whole ingestion pass (`load_all_data`, lines 41–117): the loop
`for mode in ["entry", "exit"]`, with all per-file frames concatenated in
traversal order (line 117). -/
def load_all_data (bp : String) (b : BaseDir) : List Rec :=
  processMode bp b "entry" ++ processMode bp b "exit"

/-! ## Snapshot path enumeration (for dangling-path questions) -/

/-- Full path of a date folder. -/
def folderPathOf (bp modeName foName : String) : String :=
  joinPath (joinPath bp modeName) foName

/-- All file paths that exist in the snapshot under one date folder: its
log files and the files of its image directories. -/
def folderFilePaths (bp modeName : String) (fo : DateFolder) : List String :=
  let fp := folderPathOf bp modeName fo.name
  fo.files.map (fun f => joinPath fp f.name)
    ++ fo.imageDirs.flatMap (fun dI =>
        dI.files.map (fun x => joinPath (joinPath fp dI.name) x))

/-- All file paths that exist in the snapshot. -/
def allFilePaths (bp : String) (b : BaseDir) : List String :=
  b.modeDirs.flatMap (fun md =>
    md.folders.flatMap (fun fo => folderFilePaths bp md.name fo))

/-- All image-directory paths that exist in the snapshot. -/
def allDirPaths (bp : String) (b : BaseDir) : List String :=
  b.modeDirs.flatMap (fun md =>
    md.folders.flatMap (fun fo =>
      fo.imageDirs.map (fun dI =>
        joinPath (folderPathOf bp md.name fo.name) dI.name)))

/-- "This optional path, when present, exists in the snapshot": the
property the spec asserts of `image_path`. -/
def pathLive (bp : String) (b : BaseDir) : Option String → Prop
  | none => True
  | some p => p ∈ allFilePaths bp b

instance (bp : String) (b : BaseDir) :
    ∀ o : Option String, Decidable (pathLive bp b o)
  | none => isTrue trivial
  | some p => inferInstanceAs (Decidable (p ∈ allFilePaths bp b))

/-! ## The first/last event summary (lines 182–217)

The UI builds, for each date in chronological order and for each of the two
modes, one summary row from `iloc[0]` and `iloc[-1]` of the table filtered
to that date and mode — i.e. the first and last matching record in the
table's own order, no re-sorting. -/

/-- One row of the first/last event summary (the fields the code stores at
lines 190–200: date, mode, and the id/plate/image-path of the first and
last record). -/
structure EventRow where
  date : Date
  mode : String
  firstId : String
  firstPlate : Option String
  firstImage : Option String
  lastId : String
  lastPlate : Option String
  lastImage : Option String
deriving DecidableEq, Repr

/-- Build one summary row from the first and last record of a
`(date, mode)` group. -/
def mkEventRow (d : Date) (m : String) (f l : Rec) : EventRow :=
  ⟨d, m, f.id, f.plate, f.image_path, l.id, l.plate, l.image_path⟩

/-- The chronologically sorted distinct dates of the table
(`sorted(df_all["date"].unique())`, line 184). -/
def sortedDates (tbl : List Rec) : List Date :=
  List.insertionSort dateLeP ((tbl.map (fun r => r.date)).dedup)

/-- The (at most one) summary row for one mode within one date's slice of
the table: first and last element of the slice filtered by mode, in table
order (`iloc[0]`/`iloc[-1]`, lines 189 and 205). -/
def modeRows (d : Date) (m : String) (dayDf : List Rec) : List EventRow :=
  match dayDf.filter (fun r => r.mode = m) with
  | [] => []
  | f :: rest => [mkEventRow d m f (rest.getLastD f)]

/-- The whole first/last event summary (lines 184–217). -/
def event_summary (tbl : List Rec) : List EventRow :=
  (sortedDates tbl).flatMap (fun d =>
    modeRows d "Entry" (tbl.filter (fun r => r.date = d)) ++
    modeRows d "Exit" (tbl.filter (fun r => r.date = d)))

/-! ## Orderings and skip accounting used to state the claims -/

/-- Strict "parsed order" on a folder's records: file ordinal first, row
index within the file second. -/
def ordLt (r s : Rec) : Prop :=
  r.g_ordinal < s.g_ordinal ∨ (r.g_ordinal = s.g_ordinal ∧ r.g_row < s.g_row)

/-- Rank of a mode in the claimed table ordering: `Entry` before `Exit`. -/
def modeRank (m : String) : Nat := if m = "Entry" then 0 else 1

/-- Lexicographic order on equal-length `Nat` key lists. -/
def natLexLe : List Nat → List Nat → Bool
  | [], _ => true
  | _ :: _, [] => false
  | a :: as, b :: bs => decide (a < b) || (a == b && natLexLe as bs)

/-- The sort key `(mode, date, ordinalIndex, rowIndexWithinFile)` the spec
claims the normalized table is ordered by. -/
def recKey (r : Rec) : List Nat :=
  [modeRank r.mode, r.date.year, r.date.month, r.date.day,
   r.g_ordinal, r.g_row]

/-- Is the list sorted (adjacent-wise) by `recKey`? -/
def keySortedB : List Rec → Bool
  | [] => true
  | [_] => true
  | r :: s :: rest => natLexLe (recKey r) (recKey s) && keySortedB (s :: rest)

/-- Was this file skipped during the ingestion pass?  A listed `.csv` file
is skipped when its folder's name does not parse as a date, when reading
it raises, or when its frame is empty (lines 60–63 and 114–115). -/
def fileSkippedB (fo : DateFolder) (f : FileEntry) : Bool :=
  endsWithS f.name ".csv" &&
    ((parseDMY fo.name).isNone ||
      (match f.content with
       | none => true
       | some dtc => dtc.rows.isEmpty))

/-- The names of all files skipped during ingestion (within the mode
directories the walker actually visits). -/
def skippedFiles (b : BaseDir) : List String :=
  ["entry", "exit"].flatMap (fun m =>
    match b.modeDirs.find? (fun md => md.name = m) with
    | none => []
    | some md =>
        md.folders.flatMap (fun fo =>
          (fo.files.filter (fun f => fileSkippedB fo f)).map (fun f => f.name)))

/-! ## Concrete snapshots used by witnesses and counterexamples -/

/-- A one-row entry log file in a well-formed date folder. -/
def wRow1 : CsvRow := ⟨"1", "p.jpg", "AA"⟩

def wFolder1 : DateFolder :=
  ⟨"01-01-2024", [⟨"a_entry_log.csv", some ⟨true, [wRow1]⟩⟩], []⟩

def wBase1 : BaseDir := ⟨[⟨"entry", [wFolder1]⟩]⟩

/-- The single record `load_all_data "Logs" wBase1` produces: one entry
file, so `n = 1 ≤ 3` and the record classifies Night; no image directory
exists, so `image_path` is `none`. -/
def wRec1 : Rec :=
  ⟨"1", "p.jpg", some "AA", ⟨1, 1, 2024⟩, TOD.Night, none, "Entry",
   "01-01-2024", "a_entry_log.csv", 0, 1, 0, none⟩

/-- An exit folder with one night-named log file and no image
directories. -/
def wFolder2 : DateFolder :=
  ⟨"02-01-2024", [⟨"night_exit_log.csv", some ⟨true, [⟨"5", "n.jpg", "BB"⟩]⟩⟩], []⟩

def wBase2 : BaseDir := ⟨[⟨"exit", [wFolder2]⟩]⟩

/-- The single record `load_all_data "Logs" wBase2` produces. -/
def wRec2 : Rec :=
  ⟨"5", "n.jpg", some "BB", ⟨2, 1, 2024⟩, TOD.Night, none, "Exit",
   "02-01-2024", "night_exit_log.csv", 0, 1, 0, none⟩

/-- C3 counterexample snapshot: the selected images directory `a_images`
exists but contains no file, so the produced `image_path` names a file
that does not exist in the snapshot. -/
def cFolder3 : DateFolder :=
  ⟨"01-01-2024", [⟨"a_entry_log.csv", some ⟨true, [⟨"9", "img1.jpg", "ZZ"⟩]⟩⟩],
   [⟨"a_images", []⟩]⟩

def cBase3 : BaseDir := ⟨[⟨"entry", [cFolder3]⟩]⟩

/-- C4 counterexample snapshot: the exact scenario of the claim — an exit
folder `01-01-2024` with `night_exit_log.csv`, no `01-01-2024
night_images` and no `night_images` directory, but a `01-01-2024_images`
directory that does exist (and even contains the row's image file). -/
def cFolder4 : DateFolder :=
  ⟨"01-01-2024", [⟨"night_exit_log.csv", some ⟨true, [⟨"7", "x.jpg", "PL"⟩]⟩⟩],
   [⟨"01-01-2024_images", ["x.jpg"]⟩]⟩

def cBase4 : BaseDir := ⟨[⟨"exit", [cFolder4]⟩]⟩

/-- The record `processFile` produces for the `cFolder4` night file: the
exit-night branch selects `night_images`, which does not exist, so
`image_path` is `none` even though `01-01-2024_images` exists. -/
def cRec4 : Rec :=
  ⟨"7", "x.jpg", some "PL", ⟨1, 1, 2024⟩, TOD.Night, none, "Exit",
   "01-01-2024", "night_exit_log.csv", 0, 1, 0, none⟩

/-- C5 witness snapshots: an empty base, and a base in which one file
loads and a second file is unreadable (skipped). -/
def cBase5a : BaseDir := ⟨[]⟩

def cBase5b : BaseDir :=
  ⟨[⟨"entry",
     [⟨"01-01-2024",
       [⟨"a_entry_log.csv", some ⟨true, [⟨"1", "p.jpg", "AA"⟩]⟩⟩,
        ⟨"b_entry_log.csv", none⟩], []⟩]⟩]⟩

/-- C6 counterexample snapshots: the same well-formed data under a mode
directory named `Entry` (capitalized) and under one named `entry`. -/
def cBase6cap : BaseDir := ⟨[⟨"Entry", [wFolder1]⟩]⟩

/-- C8 counterexample snapshot: the entry mode directory lists the date
folder `02-01-2024` before `01-01-2024`, so the produced table is not
sorted by date. -/
def cFolderJan2 : DateFolder :=
  ⟨"02-01-2024", [⟨"a_entry_log.csv", some ⟨true, [⟨"1", "i.jpg", "P"⟩]⟩⟩], []⟩

def cFolderJan1 : DateFolder :=
  ⟨"01-01-2024", [⟨"b_entry_log.csv", some ⟨true, [⟨"2", "j.jpg", "Q"⟩]⟩⟩], []⟩

def cBase8 : BaseDir := ⟨[⟨"entry", [cFolderJan2, cFolderJan1]⟩]⟩

/-- C10 witness snapshot: a date folder whose only file has suffix
`.log`, not `.csv`. -/
def cFolder10 : DateFolder :=
  ⟨"01-01-2024", [⟨"a_entry_log.log", some ⟨true, [⟨"1", "p.jpg", "AA"⟩]⟩⟩], []⟩

end Dash

namespace Dash

/-! ## Field computations of `mkRec` -/

@[simp]
theorem mkRec_mode (bp m : String) (fo : DateFolder) (dt : Date) (n i : Nat)
    (fname : String) (hp : Bool) (j : Nat) (row : CsvRow) :
    (mkRec bp m fo dt n i fname hp j row).mode = capitalizeS m := rfl

@[simp]
theorem mkRec_time_of_day (bp m : String) (fo : DateFolder) (dt : Date)
    (n i : Nat) (fname : String) (hp : Bool) (j : Nat) (row : CsvRow) :
    (mkRec bp m fo dt n i fname hp j row).time_of_day = todFor m n i fname := rfl

@[simp]
theorem mkRec_g_ordinal (bp m : String) (fo : DateFolder) (dt : Date)
    (n i : Nat) (fname : String) (hp : Bool) (j : Nat) (row : CsvRow) :
    (mkRec bp m fo dt n i fname hp j row).g_ordinal = i := rfl

@[simp]
theorem mkRec_g_total (bp m : String) (fo : DateFolder) (dt : Date)
    (n i : Nat) (fname : String) (hp : Bool) (j : Nat) (row : CsvRow) :
    (mkRec bp m fo dt n i fname hp j row).g_total = n := rfl

@[simp]
theorem mkRec_g_row (bp m : String) (fo : DateFolder) (dt : Date)
    (n i : Nat) (fname : String) (hp : Bool) (j : Nat) (row : CsvRow) :
    (mkRec bp m fo dt n i fname hp j row).g_row = j := rfl

@[simp]
theorem mkRec_g_file (bp m : String) (fo : DateFolder) (dt : Date)
    (n i : Nat) (fname : String) (hp : Bool) (j : Nat) (row : CsvRow) :
    (mkRec bp m fo dt n i fname hp j row).g_file = fname := rfl

@[simp]
theorem mkRec_g_folder (bp m : String) (fo : DateFolder) (dt : Date)
    (n i : Nat) (fname : String) (hp : Bool) (j : Nat) (row : CsvRow) :
    (mkRec bp m fo dt n i fname hp j row).g_folder = fo.name := rfl

@[simp]
theorem mkRec_image (bp m : String) (fo : DateFolder) (dt : Date)
    (n i : Nat) (fname : String) (hp : Bool) (j : Nat) (row : CsvRow) :
    (mkRec bp m fo dt n i fname hp j row).image = row.image := rfl

theorem mkRec_image_path (bp m : String) (fo : DateFolder) (dt : Date)
    (n i : Nat) (fname : String) (hp : Bool) (j : Nat) (row : CsvRow) :
    (mkRec bp m fo dt n i fname hp j row).image_path =
      if dirExistsIn fo (imagesNameFor m fo fname) then
        some (joinPath
          (joinPath (joinPath (joinPath bp m) fo.name) (imagesNameFor m fo fname))
          row.image)
      else none := rfl

theorem mkRec_g_imagesDir (bp m : String) (fo : DateFolder) (dt : Date)
    (n i : Nat) (fname : String) (hp : Bool) (j : Nat) (row : CsvRow) :
    (mkRec bp m fo dt n i fname hp j row).g_imagesDir =
      if dirExistsIn fo (imagesNameFor m fo fname) then
        some (joinPath (joinPath (joinPath bp m) fo.name)
          (imagesNameFor m fo fname))
      else none := rfl

/-! ## Membership inversion through the ingestion pipeline -/

theorem mem_processFile_iff {bp m : String} {fo : DateFolder} {dt : Date}
    {n i : Nat} {fname : String} {r : Rec} :
    r ∈ processFile bp m fo dt n i fname ↔
      ∃ data, lookupFile fo fname = some (some data) ∧
        data.rows.isEmpty = false ∧
        ∃ q ∈ data.rows.enum,
          r = mkRec bp m fo dt n i fname data.hasPlate q.1 q.2 := by
  unfold processFile
  cases h : lookupFile fo fname with
  | none => simp [h]
  | some oc =>
    cases oc with
    | none => simp [h]
    | some data =>
      cases he : data.rows.isEmpty with
      | true => simp [h, List.isEmpty_iff.mp he]
      | false =>
        simp only [h, he, Option.some.injEq, List.mem_map,
          Bool.false_eq_true, if_false]
        constructor
        · rintro ⟨q, hq, rfl⟩
          exact ⟨data, rfl, he, q, hq, rfl⟩
        · rintro ⟨data2, hd, -, q, hq, rfl⟩
          cases hd
          exact ⟨q, hq, rfl⟩

theorem mem_processFolder_iff {bp m : String} {fo : DateFolder} {r : Rec} :
    r ∈ processFolder bp m fo ↔
      ∃ dt, parseDMY fo.name = some dt ∧
        ∃ p ∈ (csvNames fo).enum,
          r ∈ processFile bp m fo dt (csvNames fo).length p.1 p.2 := by
  unfold processFolder
  cases h : parseDMY fo.name with
  | none => simp [h]
  | some dt => simp [h, List.mem_flatMap]

theorem mem_processMode_iff {bp : String} {b : BaseDir} {m : String} {r : Rec} :
    r ∈ processMode bp b m ↔
      ∃ md, b.modeDirs.find? (fun md => md.name = m) = some md ∧
        ∃ fo ∈ md.folders, r ∈ processFolder bp m fo := by
  unfold processMode
  cases h : b.modeDirs.find? (fun md => md.name = m) with
  | none => simp [h]
  | some md => simp [h, List.mem_flatMap]

theorem mem_load_iff {bp : String} {b : BaseDir} {r : Rec} :
    r ∈ load_all_data bp b ↔
      r ∈ processMode bp b "entry" ∨ r ∈ processMode bp b "exit" := by
  simp [load_all_data]

/-- Every record of a mode's slice carries the capitalized mode name
(line 112). -/
theorem mode_of_mem {bp : String} {b : BaseDir} {m : String} {r : Rec}
    (h : r ∈ processMode bp b m) : r.mode = capitalizeS m := by
  obtain ⟨md, -, fo, -, hf⟩ := mem_processMode_iff.mp h
  obtain ⟨dt, -, p, -, hr⟩ := mem_processFolder_iff.mp hf
  obtain ⟨data, -, -, q, -, rfl⟩ := mem_processFile_iff.mp hr
  rfl

theorem g_ordinal_of_mem_processFile {bp m : String} {fo : DateFolder}
    {dt : Date} {n i : Nat} {fname : String} {r : Rec}
    (h : r ∈ processFile bp m fo dt n i fname) : r.g_ordinal = i := by
  obtain ⟨data, -, -, q, -, rfl⟩ := mem_processFile_iff.mp h
  rfl

/-! ## Enumeration helper lemmas -/

theorem le_fst_of_mem_enumFrom {α : Type} :
    ∀ (l : List α) (k : Nat) (p : Nat × α), p ∈ List.enumFrom k l → k ≤ p.1 := by
  intro l
  induction l with
  | nil => intro k p h; simp [List.enumFrom] at h
  | cons a as ih =>
    intro k p h
    rw [List.enumFrom_cons] at h
    rcases List.mem_cons.mp h with rfl | h2
    · exact Nat.le_refl k
    · exact Nat.le_of_succ_le (ih (k + 1) p h2)

theorem snd_mem_of_mem_enumFrom {α : Type} :
    ∀ (l : List α) (k : Nat) (p : Nat × α), p ∈ List.enumFrom k l → p.2 ∈ l := by
  intro l
  induction l with
  | nil => intro k p h; simp [List.enumFrom] at h
  | cons a as ih =>
    intro k p h
    rw [List.enumFrom_cons] at h
    rcases List.mem_cons.mp h with rfl | h2
    · exact List.mem_cons_self a as
    · exact List.mem_cons_of_mem a (ih (k + 1) p h2)

theorem pairwise_fst_lt_enumFrom {α : Type} :
    ∀ (l : List α) (k : Nat),
      (List.enumFrom k l).Pairwise (fun p q => p.1 < q.1) := by
  intro l
  induction l with
  | nil => intro k; simp [List.enumFrom]
  | cons a as ih =>
    intro k
    rw [List.enumFrom_cons]
    refine List.Pairwise.cons ?_ (ih (k + 1))
    intro q hq
    exact Nat.lt_of_lt_of_le (Nat.lt_succ_self k) (le_fst_of_mem_enumFrom _ _ _ hq)

theorem fst_eq_of_mem_enumFrom_nodup {α : Type} [DecidableEq α] :
    ∀ (l : List α) (k i j : Nat) (a : α), l.Nodup →
      (i, a) ∈ List.enumFrom k l → (j, a) ∈ List.enumFrom k l → i = j := by
  intro l
  induction l with
  | nil => intro k i j a _ hi; simp [List.enumFrom] at hi
  | cons b bs ih =>
    intro k i j a hnd hi hj
    rw [List.enumFrom_cons] at hi hj
    obtain ⟨hb, hnd2⟩ := List.nodup_cons.mp hnd
    rcases List.mem_cons.mp hi with h1 | h1 <;>
      rcases List.mem_cons.mp hj with h2 | h2
    · obtain ⟨rfl, -⟩ := Prod.mk.injEq .. ▸ h1
      obtain ⟨rfl, -⟩ := Prod.mk.injEq .. ▸ h2
      rfl
    · obtain ⟨-, rfl⟩ := Prod.mk.injEq .. ▸ h1
      exact absurd (snd_mem_of_mem_enumFrom _ _ _ h2) hb
    · obtain ⟨-, rfl⟩ := Prod.mk.injEq .. ▸ h2
      exact absurd (snd_mem_of_mem_enumFrom _ _ _ h1) hb
    · exact ih (k + 1) i j a hnd2 h1 h2

end Dash

namespace Dash

/-! ## Branch-reduction lemmas for the classification -/

theorem todFor_entry (n i : Nat) (fname : String) :
    todFor "entry" n i fname = if n - 3 ≤ i then TOD.Night else TOD.Day := by
  unfold todFor
  rw [if_pos rfl]

theorem todFor_exit (n i : Nat) (fname : String) :
    todFor "exit" n i fname =
      if containsS (lowerS fname) "night" then TOD.Night else TOD.Day := by
  unfold todFor
  rw [if_neg (by decide : ¬("exit" : String) = "entry")]

/-! ## Claim theorems -/

/-- C1: for every entry-mode date folder with `n` session files in
ascending lexical order, a record parsed from the file at ordinal index
`i` has `timeOfDay = Night` iff `i ≥ n − 3` (with the ghost fields
`g_total = n`, `g_ordinal = i`); in particular all records are Night when
`n ≤ 3`, and for `n = 5` indices 0 and 1 give Day while 2, 3, 4 give
Night. -/
theorem C1_entry_positional_rule (bp : String) (b : BaseDir) (r : Rec)
    (hr : r ∈ load_all_data bp b) (hm : r.mode = "Entry") :
    (r.time_of_day = TOD.Night ↔ r.g_total - 3 ≤ r.g_ordinal) ∧
    (r.g_total ≤ 3 → r.time_of_day = TOD.Night) ∧
    (r.g_total = 5 →
      ((r.g_ordinal < 2 → r.time_of_day = TOD.Day) ∧
       (2 ≤ r.g_ordinal → r.time_of_day = TOD.Night))) := by
  rcases mem_load_iff.mp hr with h | h
  · obtain ⟨md, -, fo, -, hf⟩ := mem_processMode_iff.mp h
    obtain ⟨dt, -, p, -, hr2⟩ := mem_processFolder_iff.mp hf
    obtain ⟨data, -, -, q, -, rfl⟩ := mem_processFile_iff.mp hr2
    simp only [mkRec_time_of_day, mkRec_g_total, mkRec_g_ordinal, todFor_entry]
    have hiff : (if (csvNames fo).length - 3 ≤ p.1 then TOD.Night else TOD.Day)
        = TOD.Night ↔ (csvNames fo).length - 3 ≤ p.1 := by
      by_cases hni : (csvNames fo).length - 3 ≤ p.1 <;> simp [hni]
    refine ⟨hiff, fun h3 => hiff.mpr (by omega),
      fun h5 => ⟨fun h2 => ?_, fun h2 => hiff.mpr (by omega)⟩⟩
    rw [if_neg (by omega)]
  · exact absurd (hm.symm.trans (mode_of_mem h)) (by decide)

/-- C1 witness: the single record of `wBase1` comes from a date with one
entry file (`n = 1 ≤ 3`), so it classifies Night. -/
theorem C1_witness :
    (wRec1.time_of_day = TOD.Night ↔ wRec1.g_total - 3 ≤ wRec1.g_ordinal) ∧
    (wRec1.g_total ≤ 3 → wRec1.time_of_day = TOD.Night) ∧
    (wRec1.g_total = 5 →
      ((wRec1.g_ordinal < 2 → wRec1.time_of_day = TOD.Day) ∧
       (2 ≤ wRec1.g_ordinal → wRec1.time_of_day = TOD.Night))) :=
  C1_entry_positional_rule "Logs" wBase1 wRec1 (by decide) (by decide)

/-- C2: for every exit-mode record, `timeOfDay = Night` iff the source
file name contains `"night"` case-insensitively, independently of the
file's ordinal position (the right-hand side does not mention
`g_ordinal`). -/
theorem C2_exit_filename_rule (bp : String) (b : BaseDir) (r : Rec)
    (hr : r ∈ load_all_data bp b) (hm : r.mode = "Exit") :
    r.time_of_day = TOD.Night ↔ containsS (lowerS r.g_file) "night" = true := by
  rcases mem_load_iff.mp hr with h | h
  · exact absurd (hm.symm.trans (mode_of_mem h)) (by decide)
  · obtain ⟨md, -, fo, -, hf⟩ := mem_processMode_iff.mp h
    obtain ⟨dt, -, p, -, hr2⟩ := mem_processFolder_iff.mp hf
    obtain ⟨data, -, -, q, -, rfl⟩ := mem_processFile_iff.mp hr2
    simp only [mkRec_time_of_day, mkRec_g_file, todFor_exit]
    by_cases hn : containsS (lowerS p.2) "night" = true
    · simp [hn]
    · simp [hn]

/-- C2 witness: the record of `wBase2` comes from `night_exit_log.csv`,
whose name contains `"night"`. -/
theorem C2_witness :
    wRec2.time_of_day = TOD.Night ↔
      containsS (lowerS wRec2.g_file) "night" = true :=
  C2_exit_filename_rule "Logs" wBase2 wRec2 (by decide) (by decide)

/-- C10: only files with the exact suffix `.csv` are treated as session
files: every ingested record's source file name ends in `.csv`, and a
date folder none of whose files ends in `.csv` contributes zero records,
without error. -/
theorem C10_csv_suffix_only :
    (∀ (bp : String) (b : BaseDir) (r : Rec), r ∈ load_all_data bp b →
      endsWithS r.g_file ".csv" = true) ∧
    (∀ (bp m : String) (fo : DateFolder),
      (∀ f ∈ fo.files, endsWithS f.name ".csv" = false) →
      processFolder bp m fo = []) := by
  constructor
  · have main : ∀ (bp : String) (b : BaseDir) (m : String) (r : Rec),
        r ∈ processMode bp b m → endsWithS r.g_file ".csv" = true := by
      intro bp b m r h
      obtain ⟨md, -, fo, -, hf⟩ := mem_processMode_iff.mp h
      obtain ⟨dt, -, p, hp, hr2⟩ := mem_processFolder_iff.mp hf
      obtain ⟨data, -, -, q, -, rfl⟩ := mem_processFile_iff.mp hr2
      have h2 : p.2 ∈ csvNames fo := snd_mem_of_mem_enumFrom _ _ _ hp
      unfold csvNames at h2
      obtain ⟨-, hcsv⟩ :=
        List.mem_filter.mp ((List.mem_insertionSort strLeP).mp h2)
      simpa using hcsv
    intro bp b r hr
    rcases mem_load_iff.mp hr with h | h
    · exact main _ _ _ _ h
    · exact main _ _ _ _ h
  · intro bp m fo hall
    have hcsv : csvNames fo = [] := by
      unfold csvNames
      have hfil : (fo.files.map (fun f => f.name)).filter
          (fun nm => endsWithS nm ".csv") = [] := by
        rw [List.filter_eq_nil_iff]
        intro nm hnm
        obtain ⟨f, hf, rfl⟩ := List.mem_map.mp hnm
        simp [hall f hf]
      rw [hfil]
      rfl
    unfold processFolder
    cases hp : parseDMY fo.name with
    | none => rfl
    | some dt => rw [hcsv]; rfl

/-- C10 witness: the record of `wBase1` comes from a `.csv` file, and the
folder `cFolder10`, whose only file ends in `.log`, contributes
nothing. -/
theorem C10_witness :
    endsWithS wRec1.g_file ".csv" = true ∧
    processFolder "Logs" "entry" cFolder10 = [] :=
  ⟨C10_csv_suffix_only.1 "Logs" wBase1 wRec1 (by decide),
   C10_csv_suffix_only.2 "Logs" "entry" cFolder10 (by decide)⟩

end Dash

namespace Dash

/-- C3 counterexample: in `cBase3` the selected images directory
`a_images` exists but the row's image file `img1.jpg` does not exist
inside it, so the produced `image_path` is a dangling path — the claim
"imagePath is either null or a path that exists" is false of the code. -/
theorem C3_counterexample :
    ¬ ∀ r ∈ load_all_data "Logs" cBase3, pathLive "Logs" cBase3 r.image_path := by
  decide

/-- C3 amended: `image_path` is null exactly when the selected candidate
image directory does not exist; when non-null it is the row's image
filename joined to an image directory that does exist in the snapshot —
but the joined file itself may not exist (the code checks only the
directory, line 108). -/
theorem C3_amended_dir_exists (bp : String) (b : BaseDir) (r : Rec)
    (hr : r ∈ load_all_data bp b) :
    (r.image_path = none ∧ r.g_imagesDir = none) ∨
    (∃ dp, r.g_imagesDir = some dp ∧ dp ∈ allDirPaths bp b ∧
      r.image_path = some (joinPath dp r.image)) := by
  have key : ∀ m, r ∈ processMode bp b m →
      (r.image_path = none ∧ r.g_imagesDir = none) ∨
      (∃ dp, r.g_imagesDir = some dp ∧ dp ∈ allDirPaths bp b ∧
        r.image_path = some (joinPath dp r.image)) := by
    intro m h
    obtain ⟨md, hfind, fo, hfo, hf⟩ := mem_processMode_iff.mp h
    have hmdmem : md ∈ b.modeDirs := List.mem_of_find?_eq_some hfind
    have hmdname : md.name = m := by simpa using List.find?_some hfind
    obtain ⟨dt, -, p, -, hr2⟩ := mem_processFolder_iff.mp hf
    obtain ⟨data, -, -, q, -, rfl⟩ := mem_processFile_iff.mp hr2
    rw [mkRec_image_path, mkRec_g_imagesDir, mkRec_image]
    cases hex : dirExistsIn fo (imagesNameFor m fo p.2) with
    | false => left; simp
    | true =>
      right
      simp only [if_true]
      refine ⟨_, rfl, ?_, rfl⟩
      obtain ⟨dI, hdI, hname⟩ := List.any_eq_true.mp hex
      have hname2 : dI.name = imagesNameFor m fo p.2 := by simpa using hname
      refine List.mem_flatMap.mpr ⟨md, hmdmem, ?_⟩
      refine List.mem_flatMap.mpr ⟨fo, hfo, ?_⟩
      refine List.mem_map.mpr ⟨dI, hdI, ?_⟩
      rw [hname2, hmdname]
      rfl
  rcases mem_load_iff.mp hr with h | h
  · exact key _ h
  · exact key _ h

/-- C3 amended witness: the record of `wBase1`, whose candidate directory
does not exist, falls in the null case. -/
theorem C3_witness :
    (wRec1.image_path = none ∧ wRec1.g_imagesDir = none) ∨
    (∃ dp, wRec1.g_imagesDir = some dp ∧ dp ∈ allDirPaths "Logs" wBase1 ∧
      wRec1.image_path = some (joinPath dp wRec1.image)) :=
  C3_amended_dir_exists "Logs" wBase1 wRec1 (by decide)

/-- C4 counterexample: in the claim's own scenario (`cBase4`: exit folder
`01-01-2024` with `night_exit_log.csv`, no `01-01-2024 night_images`, no
`night_images`, but `01-01-2024_images` present) the ingestion produces
records and every one of them has `image_path = none` — not a non-null
path inside `01-01-2024_images` as the claim states. -/
theorem C4_counterexample :
    load_all_data "Logs" cBase4 ≠ [] ∧
    ∀ r ∈ load_all_data "Logs" cBase4, r.image_path = none := by
  decide

/-- C4 amended: for an exit session file whose name contains `"night"`,
when neither `"<dateFolderName> night_images"` nor `"night_images"`
exists, every record of that file has a null `imagePath`: the exit-night
branch (lines 79–88) considers only those two candidates and never falls
back to `"<dateFolderName>_images"`. -/
theorem C4_night_no_fallback (bp : String) (fo : DateFolder) (dt : Date)
    (n i : Nat) (fname : String) (r : Rec)
    (hn : containsS (lowerS fname) "night" = true)
    (h1 : dirExistsIn fo (fo.name ++ " night_images") = false)
    (h2 : dirExistsIn fo "night_images" = false)
    (hr : r ∈ processFile bp "exit" fo dt n i fname) :
    r.image_path = none := by
  obtain ⟨data, -, -, q, -, rfl⟩ := mem_processFile_iff.mp hr
  rw [mkRec_image_path]
  have hname : imagesNameFor "exit" fo fname = "night_images" := by
    unfold imagesNameFor
    rw [if_neg (by decide : ¬("exit" : String) = "entry")]
    simp [hn, h1]
  rw [hname]
  simp [h2]

/-- C4 amended witness: the concrete record of the scenario snapshot. -/
theorem C4_witness : cRec4.image_path = none :=
  C4_night_no_fallback "Logs" cFolder4 ⟨1, 1, 2024⟩ 1 0 "night_exit_log.csv"
    cRec4 (by decide) (by decide) (by decide) (by decide)

/-- C5: the value returned to the caller separates "zero records" from
"records produced, some files skipped": whenever one snapshot yields an
empty table and another yields a non-empty table with a non-empty skip
set, the two returned tables differ.  (The code returns only the record
table, line 117 — empty vs. non-empty is the entire distinction it
offers.) -/
theorem C5_empty_vs_partial (bp : String) (b1 b2 : BaseDir)
    (h1 : load_all_data bp b1 = [])
    (_h2 : skippedFiles b2 ≠ [])
    (h3 : load_all_data bp b2 ≠ []) :
    load_all_data bp b1 ≠ load_all_data bp b2 := by
  rw [h1]
  exact fun he => h3 he.symm

/-- C5 witness: the empty base versus a base with one loaded file and one
unreadable (skipped) file. -/
theorem C5_witness :
    load_all_data "Logs" cBase5a ≠ load_all_data "Logs" cBase5b :=
  C5_empty_vs_partial "Logs" cBase5a cBase5b (by decide) (by decide) (by decide)

/-- C6 counterexample: the same well-formed data is ingested under a mode
directory named `entry` but yields nothing under one named `Entry` — the
walker's lookup is exact-lowercase, not case-insensitive. -/
theorem C6_counterexample :
    load_all_data "Logs" cBase6cap = [] ∧
    load_all_data "Logs" wBase1 ≠ [] := by
  decide

/-- C6 amended: the walker looks up mode subdirectories by the exact
lowercase names `"entry"` and `"exit"` (line 44–46); a base directory
with no subdirectory named exactly `"entry"` — even if it has one in
another casing — contributes no entry records, and the result degrades to
whatever the exit lookup finds, without error. -/
theorem C6_exact_lowercase_modes (bp : String) (b : BaseDir)
    (h : ∀ md ∈ b.modeDirs, md.name ≠ "entry") :
    processMode bp b "entry" = [] ∧
    load_all_data bp b = processMode bp b "exit" := by
  have hf : b.modeDirs.find? (fun md => md.name = "entry") = none := by
    rw [List.find?_eq_none]
    intro md hmd
    simpa using h md hmd
  constructor
  · unfold processMode
    rw [hf]
  · unfold load_all_data processMode
    rw [hf]
    rfl

/-- C6 amended witness: applied to the capitalized-`Entry` snapshot. -/
theorem C6_witness :
    processMode "Logs" cBase6cap "entry" = [] ∧
    load_all_data "Logs" cBase6cap = processMode "Logs" cBase6cap "exit" :=
  C6_exact_lowercase_modes "Logs" cBase6cap (by decide)

end Dash

namespace Dash

/-! ## Parsed-order lemmas for the per-folder record stream -/

theorem pairwise_ordLt_processFile (bp m : String) (fo : DateFolder)
    (dt : Date) (n i : Nat) (fname : String) :
    (processFile bp m fo dt n i fname).Pairwise ordLt := by
  unfold processFile
  cases h : lookupFile fo fname with
  | none => simp
  | some oc =>
    cases oc with
    | none => simp
    | some data =>
      cases he : data.rows.isEmpty with
      | true => simp [List.isEmpty_iff.mp he]
      | false =>
        simp only [he, Bool.false_eq_true, if_false]
        rw [List.pairwise_map]
        refine List.Pairwise.imp ?_ (pairwise_fst_lt_enumFrom data.rows 0)
        intro p q hpq
        exact Or.inr ⟨rfl, hpq⟩

theorem pairwise_ordLt_processFolder (bp m : String) (fo : DateFolder) :
    (processFolder bp m fo).Pairwise ordLt := by
  unfold processFolder
  cases h : parseDMY fo.name with
  | none => simp
  | some dt =>
    rw [List.pairwise_flatMap]
    constructor
    · intro p hp
      exact pairwise_ordLt_processFile bp m fo dt (csvNames fo).length p.1 p.2
    · refine List.Pairwise.imp ?_ (pairwise_fst_lt_enumFrom (csvNames fo) 0)
      intro p q hpq x hx y hy
      exact Or.inl (by
        rw [g_ordinal_of_mem_processFile hx, g_ordinal_of_mem_processFile hy]
        exact hpq)

/-- C7: (a) whenever the table filtered by a date and then by a mode is
non-empty, the summary contains the row built from the first and last
record of that filtered slice in table order (`iloc[0]`/`iloc[-1]`, no
timestamp sorting — the records carry no timestamp at all); (b) within a
folder the table order is parsed order: file ordinal strictly first, then
row index within the file. -/
theorem C7_first_last_parsed_order :
    (∀ (tbl : List Rec) (d : Date) (m : String) (f : Rec) (rest : List Rec),
      (m = "Entry" ∨ m = "Exit") →
      (tbl.filter (fun r => r.date = d)).filter (fun r => r.mode = m)
        = f :: rest →
      mkEventRow d m f (rest.getLastD f) ∈ event_summary tbl) ∧
    (∀ (bp mo : String) (fo : DateFolder),
      (processFolder bp mo fo).Pairwise ordLt) := by
  constructor
  · intro tbl d m f rest hm hpair
    have hf1 : f ∈ (tbl.filter (fun r => r.date = d)).filter
        (fun r => r.mode = m) := by
      rw [hpair]
      exact List.mem_cons_self _ _
    have hf2 : f ∈ tbl.filter (fun r => r.date = d) :=
      List.mem_of_mem_filter hf1
    have hfd : f.date = d := by simpa using (List.mem_filter.mp hf2).2
    have hdmem : d ∈ sortedDates tbl := by
      unfold sortedDates
      refine (List.mem_insertionSort dateLeP).mpr ?_
      rw [List.mem_dedup]
      exact hfd ▸ List.mem_map_of_mem _ (List.mem_of_mem_filter hf2)
    refine List.mem_flatMap.mpr ⟨d, hdmem, ?_⟩
    have hrows : modeRows d m (tbl.filter (fun r => r.date = d))
        = [mkEventRow d m f (rest.getLastD f)] := by
      unfold modeRows
      rw [hpair]
    rcases hm with rfl | rfl
    · exact List.mem_append_left _ (hrows ▸ List.mem_singleton_self _)
    · exact List.mem_append_right _ (hrows ▸ List.mem_singleton_self _)
  · intro bp mo fo
    exact pairwise_ordLt_processFolder bp mo fo

/-- C7 witness: the one-record table of `wBase1` yields the summary row
whose first and last record are that record. -/
theorem C7_witness :
    mkEventRow ⟨1, 1, 2024⟩ "Entry" wRec1 (List.getLastD [] wRec1)
      ∈ event_summary [wRec1] :=
  C7_first_last_parsed_order.1 [wRec1] ⟨1, 1, 2024⟩ "Entry" wRec1 []
    (Or.inl rfl) (by decide)

/-- C8 counterexample: with the date folders listed as `02-01-2024`
before `01-01-2024` (`cBase8`), the produced table is not sorted by the
claimed `(mode, date, ordinalIndex, rowIndexWithinFile)` key — the code
keeps `os.listdir` order of date folders and never sorts them. -/
theorem C8_counterexample :
    keySortedB (load_all_data "Logs" cBase8) = false := by
  decide

/-- C8 amended: ingestion is deterministic — equal snapshots yield equal
tables — and the table is mode-major (every Entry record precedes every
Exit record); within a mode, date folders appear in directory-listing
order (not sorted by date), each folder's files in ascending lexical
order, rows in file order. -/
theorem C8_deterministic_mode_major (bp : String) (b1 b2 : BaseDir)
    (h : b1 = b2) :
    load_all_data bp b1 = load_all_data bp b2 ∧
    (load_all_data bp b1).Pairwise
      (fun r s => modeRank r.mode ≤ modeRank s.mode) := by
  subst h
  refine ⟨rfl, ?_⟩
  unfold load_all_data
  rw [List.pairwise_append]
  refine ⟨List.pairwise_of_forall_mem_list ?_,
    List.pairwise_of_forall_mem_list ?_, ?_⟩
  · intro r hr s hs
    rw [mode_of_mem hr, mode_of_mem hs]
  · intro r hr s hs
    rw [mode_of_mem hr, mode_of_mem hs]
  · intro r hr s hs
    rw [mode_of_mem hr, mode_of_mem hs]
    decide

/-- C8 amended witness. -/
theorem C8_witness :
    load_all_data "Logs" cBase8 = load_all_data "Logs" cBase8 ∧
    (load_all_data "Logs" cBase8).Pairwise
      (fun r s => modeRank r.mode ≤ modeRank s.mode) :=
  C8_deterministic_mode_major "Logs" cBase8 cBase8 rfl

end Dash

namespace Dash

/-- C9: all rows parsed from the same session file are classified
uniformly: two records of the same mode, date folder and source file have
the same `timeOfDay` and the same selected images directory, and each
record's `imagePath` is exactly its image filename joined to that one
directory (or null when the directory does not exist) — classification
and directory choice are per-file, never per-row.  The hypothesis states
that directory listings carry distinct names, which is what a real
filesystem guarantees. -/
theorem C9_per_file_uniformity (bp : String) (b : BaseDir) (r s : Rec)
    (hnod : ∀ md ∈ b.modeDirs,
      (md.folders.map (fun fo => fo.name)).Nodup ∧
      ∀ fo ∈ md.folders, (fo.files.map (fun f => f.name)).Nodup)
    (hr : r ∈ load_all_data bp b) (hs : s ∈ load_all_data bp b)
    (hmode : r.mode = s.mode) (hfo : r.g_folder = s.g_folder)
    (hfi : r.g_file = s.g_file) :
    r.time_of_day = s.time_of_day ∧ r.g_imagesDir = s.g_imagesDir ∧
    r.image_path = r.g_imagesDir.map (fun dp => joinPath dp r.image) := by
  have key : ∀ m, r ∈ processMode bp b m → s ∈ processMode bp b m →
      r.time_of_day = s.time_of_day ∧ r.g_imagesDir = s.g_imagesDir ∧
      r.image_path = r.g_imagesDir.map (fun dp => joinPath dp r.image) := by
    intro m hrm hsm
    obtain ⟨md, hfind, fo, hfom, hfr⟩ := mem_processMode_iff.mp hrm
    obtain ⟨md2, hfind2, fo2, hfom2, hfs⟩ := mem_processMode_iff.mp hsm
    have hmdmem : md ∈ b.modeDirs := List.mem_of_find?_eq_some hfind
    have hmd : md = md2 := Option.some.inj (hfind.symm.trans hfind2)
    subst hmd
    obtain ⟨dt, hdt, ⟨i, fname⟩, hp, hr2⟩ := mem_processFolder_iff.mp hfr
    obtain ⟨dt2, hdt2, ⟨i2, fname2⟩, hp2, hs2⟩ := mem_processFolder_iff.mp hfs
    obtain ⟨data, hlk, -, ⟨j, row⟩, -, rfl⟩ := mem_processFile_iff.mp hr2
    obtain ⟨data2, hlk2, -, ⟨j2, row2⟩, -, rfl⟩ := mem_processFile_iff.mp hs2
    have hfoname : fo.name = fo2.name := by simpa using hfo
    have hfoeq : fo = fo2 :=
      List.inj_on_of_nodup_map (hnod md hmdmem).1 hfom hfom2 hfoname
    subst hfoeq
    have hdteq : dt = dt2 := Option.some.inj (hdt.symm.trans hdt2)
    subst hdteq
    have hfname : fname = fname2 := by simpa using hfi
    subst hfname
    have hnodcsv : (csvNames fo).Nodup := by
      unfold csvNames
      exact (List.perm_insertionSort strLeP _).nodup_iff.mpr
        (((hnod md hmdmem).2 fo hfom).filter _)
    have hii : i = i2 :=
      fst_eq_of_mem_enumFrom_nodup (csvNames fo) 0 i i2 fname hnodcsv hp hp2
    subst hii
    have hdata : data = data2 :=
      Option.some.inj (Option.some.inj (hlk.symm.trans hlk2))
    subst hdata
    refine ⟨rfl, rfl, ?_⟩
    cases hex : dirExistsIn fo (imagesNameFor m fo fname) <;>
      simp [mkRec_image_path, mkRec_g_imagesDir, hex]
  rcases mem_load_iff.mp hr with h1 | h1 <;> rcases mem_load_iff.mp hs with h2 | h2
  · exact key "entry" h1 h2
  · exact absurd ((mode_of_mem h1).symm.trans (hmode.trans (mode_of_mem h2)))
      (by decide)
  · exact absurd ((mode_of_mem h1).symm.trans (hmode.trans (mode_of_mem h2)))
      (by decide)
  · exact key "exit" h1 h2

/-- C9 witness: applied to the single record of `wBase1` (as both
records). -/
theorem C9_witness :
    wRec1.time_of_day = wRec1.time_of_day ∧
    wRec1.g_imagesDir = wRec1.g_imagesDir ∧
    wRec1.image_path = wRec1.g_imagesDir.map (fun dp => joinPath dp wRec1.image) :=
  C9_per_file_uniformity "Logs" wBase1 wRec1 wRec1 (by decide) (by decide)
    (by decide) rfl rfl rfl

end Dash
